import Mathlib

/-!
Shallow embedding of the paged-memory accessor, bank selector and FIFO
accessors of `src/ism330dhcx_reg.c`, together with several transports
(a faithful device simulation of the page-select / page-address /
page-value indirection, a call logger, and a fail-injecting counter)
used to state and prove the specification claims.

The repository ships only `ism330dhcx_reg.c`; the header
`ism330dhcx_reg.h` (register addresses, bitfield layouts, enumeration
encodings) is not part of the sources given, so those constants are
modelled from the specification and marked as such in doc comments.
Everything else is translated directly from the C file.
-/

namespace Ism330dhcx

/-- Modelled from the spec: register address of the bank-control register
(`ISM330DHCX_FUNC_CFG_ACCESS`), declared in the missing header
`ism330dhcx_reg.h`.  Only distinctness of the addresses matters. -/
def ISM330DHCX_FUNC_CFG_ACCESS : Nat := 0x01

/-- Modelled from the spec: address of the page-select register. -/
def ISM330DHCX_PAGE_SEL : Nat := 0x02

/-- Modelled from the spec: address of the page-address register. -/
def ISM330DHCX_PAGE_ADDRESS : Nat := 0x08

/-- Modelled from the spec: address of the page-value register. -/
def ISM330DHCX_PAGE_VALUE : Nat := 0x09

/-- Modelled from the spec: address of the page read/write-enable register. -/
def ISM330DHCX_PAGE_RW : Nat := 0x17

/-- Modelled from the spec: address of the first FIFO status register. -/
def ISM330DHCX_FIFO_STATUS1 : Nat := 0x3A

/-- Modelled from the spec: address of the FIFO tag register. -/
def ISM330DHCX_FIFO_DATA_OUT_TAG : Nat := 0x78

/-- Modelled from the spec: address of the FIFO data-output register. -/
def ISM330DHCX_FIFO_DATA_OUT_X_L : Nat := 0x79

/-- Modelled from the spec: the `reg_access` bitfield of the
`FUNC_CFG_ACCESS` register (the bank-selector field; the register
"also carries unrelated bits that must be preserved").  We place the
two-bit field in the top bits of the byte; extraction. -/
def regAccessGet (b : Nat) : Nat := b / 64 % 4

/-- Modelled from the spec: store `v` into the `reg_access` field of
register byte `b`, preserving the unrelated low bits. -/
def regAccessSet (b v : Nat) : Nat := b % 64 + v % 4 * 64

/-- Modelled from the spec: the 4-bit `page_sel` field of the
page-select register ("4-bit page index plus one always-set reserved
bit"); the index sits in the high nibble. -/
def pageSelGet (b : Nat) : Nat := b / 16 % 16

/-- The byte the driver stores into the page-select register: the C code
assigns both fields (`page_sel = idx` and the reserved `not_used_01 = 1`),
so the whole byte is determined. -/
def pageSelByte (idx : Nat) : Nat := idx % 16 * 16 + 1

/-- Modelled from the spec: the 2-bit `page_rw` field of the page
read/write-enable register (placed in the low bits); extraction. -/
def pageRwGet (b : Nat) : Nat := b % 4

/-- Modelled from the spec: store `v` into the `page_rw` field of byte
`b`, preserving the other bits. -/
def pageRwSet (b v : Nat) : Nat := b / 4 * 4 + v % 4

/-- The three register banks (`ism330dhcx_reg_access_t`). -/
inductive Bank
  | user
  | sensorHub
  | embeddedFunc
deriving DecidableEq, Repr

/-- Modelled from the spec: numeric encoding of the bank enumeration
from the missing header (distinct small codes fitting the 2-bit field). -/
def Bank.code : Bank → Nat
  | .user => 0
  | .sensorHub => 1
  | .embeddedFunc => 2

/-- The `switch` of `ism330dhcx_mem_bank_get`: known encodings map to
themselves, anything else defaults to the User bank. -/
def bankDecode (c : Nat) : Bank :=
  if c = Bank.code .user then .user
  else if c = Bank.code .sensorHub then .sensorHub
  else if c = Bank.code .embeddedFunc then .embeddedFunc
  else .user

/-- The FIFO tag kinds (`ism330dhcx_fifo_tag_t`). -/
inductive FifoTag
  | gyro_nc
  | xl_nc
  | temperature
  | timestamp
  | cfg_change
  | xl_nc_t_2
  | xl_nc_t_1
  | xl_2xc
  | xl_3xc
  | gyro_nc_t_2
  | gyro_nc_t_1
  | gyro_2xc
  | gyro_3xc
  | sh_slave0
  | sh_slave1
  | sh_slave2
  | sh_slave3
  | step_counter
  | sh_nack
deriving DecidableEq, Repr

/-- Modelled from the spec: the numeric tag codes from the missing
header.  The spec fixes the gyroscope code at 0x01 and requires 0x1F to
lie outside the known set; the remaining kinds get consecutive codes
with the sensor-hub NACK at 0x19. -/
def FifoTag.code : FifoTag → Nat
  | .gyro_nc => 0x01
  | .xl_nc => 0x02
  | .temperature => 0x03
  | .timestamp => 0x04
  | .cfg_change => 0x05
  | .xl_nc_t_2 => 0x06
  | .xl_nc_t_1 => 0x07
  | .xl_2xc => 0x08
  | .xl_3xc => 0x09
  | .gyro_nc_t_2 => 0x0A
  | .gyro_nc_t_1 => 0x0B
  | .gyro_2xc => 0x0C
  | .gyro_3xc => 0x0D
  | .sh_slave0 => 0x0E
  | .sh_slave1 => 0x0F
  | .sh_slave2 => 0x10
  | .sh_slave3 => 0x11
  | .step_counter => 0x12
  | .sh_nack => 0x19

/-- The known tag codes, i.e. the `case` labels of the `switch` in
`ism330dhcx_fifo_sensor_tag_get`. -/
def knownTagCodes : List Nat :=
  [FifoTag.code .gyro_nc, FifoTag.code .xl_nc, FifoTag.code .temperature,
   FifoTag.code .timestamp, FifoTag.code .cfg_change, FifoTag.code .xl_nc_t_2,
   FifoTag.code .xl_nc_t_1, FifoTag.code .xl_2xc, FifoTag.code .xl_3xc,
   FifoTag.code .gyro_nc_t_2, FifoTag.code .gyro_nc_t_1, FifoTag.code .gyro_2xc,
   FifoTag.code .gyro_3xc, FifoTag.code .sh_slave0, FifoTag.code .sh_slave1,
   FifoTag.code .sh_slave2, FifoTag.code .sh_slave3, FifoTag.code .step_counter,
   FifoTag.code .sh_nack]

/-- The `switch` of `ism330dhcx_fifo_sensor_tag_get`: each known code
maps to its kind, the `default` arm yields the sensor-hub NACK kind. -/
def fifoTagDecode (c : Nat) : FifoTag :=
  if c = FifoTag.code .gyro_nc then .gyro_nc
  else if c = FifoTag.code .xl_nc then .xl_nc
  else if c = FifoTag.code .temperature then .temperature
  else if c = FifoTag.code .timestamp then .timestamp
  else if c = FifoTag.code .cfg_change then .cfg_change
  else if c = FifoTag.code .xl_nc_t_2 then .xl_nc_t_2
  else if c = FifoTag.code .xl_nc_t_1 then .xl_nc_t_1
  else if c = FifoTag.code .xl_2xc then .xl_2xc
  else if c = FifoTag.code .xl_3xc then .xl_3xc
  else if c = FifoTag.code .gyro_nc_t_2 then .gyro_nc_t_2
  else if c = FifoTag.code .gyro_nc_t_1 then .gyro_nc_t_1
  else if c = FifoTag.code .gyro_2xc then .gyro_2xc
  else if c = FifoTag.code .gyro_3xc then .gyro_3xc
  else if c = FifoTag.code .sh_slave0 then .sh_slave0
  else if c = FifoTag.code .sh_slave1 then .sh_slave1
  else if c = FifoTag.code .sh_slave2 then .sh_slave2
  else if c = FifoTag.code .sh_slave3 then .sh_slave3
  else if c = FifoTag.code .step_counter then .step_counter
  else if c = FifoTag.code .sh_nack then .sh_nack
  else .sh_nack

/-- Modelled from the spec: the `tag_sensor` field of the FIFO tag
register.  The spec's `decode_tag` consumes the raw tag byte directly
(scenario: raw byte 0x01 is the gyroscope kind), so the field is the
whole byte. -/
def tagSensorGet (b : Nat) : Nat := b

/-- Modelled from the spec: the `diff_fifo` field of `FIFO_STATUS2`
(the high part of the unread-record count).  The spec composes the
count as `high_byte * 256 + low_byte`, so the field is the byte. -/
def diffFifoHi (b : Nat) : Nat := b

/-- The caller-supplied register transport (`stmdev_ctx_t`): a
read-register and a write-register primitive over an opaque state.
`readReg s addr len` returns (status, bytes, new state);
`writeReg s addr bytes` returns (status, new state). -/
structure Transport (σ : Type) where
  readReg : σ → Nat → Nat → Int × List Nat × σ
  writeReg : σ → Nat → List Nat → Int × σ

/-- The `if (ret == 0) { ret = ...; }` chaining idiom used everywhere in
the C file: run the next step only when the status so far is zero. -/
def andThen {σ : Type} (r : Int × σ) (f : σ → Int × σ) : Int × σ :=
  if r.1 = 0 then f r.2 else r

/-- The C read-modify-write idiom: read one register byte; if that
succeeded, transform it with `f` and write it back. -/
def rmw {σ : Type} (T : Transport σ) (s : σ) (addr : Nat) (f : Nat → Nat) :
    Int × σ :=
  let r := T.readReg s addr 1
  if r.1 = 0 then T.writeReg r.2.2 addr [f (r.2.1.headD 0)] else (r.1, r.2.2)

/-- `ism330dhcx_mem_bank_set`: read `FUNC_CFG_ACCESS`, overwrite the
`reg_access` field, write it back. -/
def ism330dhcx_mem_bank_set {σ : Type} (T : Transport σ) (s : σ) (val : Bank) :
    Int × σ :=
  rmw T s ISM330DHCX_FUNC_CFG_ACCESS (fun b => regAccessSet b val.code)

/-- `ism330dhcx_mem_bank_get`: read `FUNC_CFG_ACCESS` and decode the
`reg_access` field.  The C function runs its `switch` and stores into
`*val` unconditionally, even when the read failed; `junk` is the
uninitialized local buffer byte the decode then consumes.  The middle
component is `some` exactly when the out-parameter was written. -/
def ism330dhcx_mem_bank_get {σ : Type} (T : Transport σ) (s : σ) (junk : Nat) :
    Int × Option Bank × σ :=
  let r := T.readReg s ISM330DHCX_FUNC_CFG_ACCESS 1
  let b := if r.1 = 0 then r.2.1.headD junk else junk
  (r.1, some (bankDecode (regAccessGet b)), r.2.2)

/-- `ism330dhcx_ln_pg_write_byte`: select the embedded-function bank,
enable page write, program page-select and page-address from the 16-bit
logical address, write the byte to the page-value register, disable
page write, restore the User bank.  Every step is guarded by the
accumulated status, exactly as the C `if (ret == 0)` chain. -/
def ism330dhcx_ln_pg_write_byte {σ : Type} (T : Transport σ) (s : σ)
    (add : Nat) (val : Nat) : Int × σ :=
  let msb := add / 256 % 16
  let r := ism330dhcx_mem_bank_set T s .embeddedFunc
  let r := andThen r fun s1 => rmw T s1 ISM330DHCX_PAGE_RW (fun b => pageRwSet b 2)
  let r := andThen r fun s1 => rmw T s1 ISM330DHCX_PAGE_SEL (fun _ => pageSelByte msb)
  let r := andThen r fun s1 =>
    T.writeReg s1 ISM330DHCX_PAGE_ADDRESS [(add - msb * 256) % 256]
  let r := andThen r fun s1 => T.writeReg s1 ISM330DHCX_PAGE_VALUE [val]
  let r := andThen r fun s1 => rmw T s1 ISM330DHCX_PAGE_RW (fun b => pageRwSet b 0)
  andThen r fun s1 => ism330dhcx_mem_bank_set T s1 .user

/-- `ism330dhcx_ln_pg_read_byte`: like the write path but with page
read enable, and the payload step is a transport read of length 2 from
the page-value register into the caller's byte (the C passes the
caller's one-byte buffer with `len = 2`); the returned value is the
first byte read, or the unchanged caller byte `junk` when no read
reached it. -/
def ism330dhcx_ln_pg_read_byte {σ : Type} (T : Transport σ) (s : σ)
    (add : Nat) (junk : Nat) : Int × Nat × σ :=
  let msb := add / 256 % 16
  let r := ism330dhcx_mem_bank_set T s .embeddedFunc
  let r := andThen r fun s1 => rmw T s1 ISM330DHCX_PAGE_RW (fun b => pageRwSet b 1)
  let r := andThen r fun s1 => rmw T s1 ISM330DHCX_PAGE_SEL (fun _ => pageSelByte msb)
  let r := andThen r fun s1 =>
    T.writeReg s1 ISM330DHCX_PAGE_ADDRESS [(add - msb * 256) % 256]
  let rv :=
    if r.1 = 0 then
      let rr := T.readReg r.2 ISM330DHCX_PAGE_VALUE 2
      (rr.1, (if rr.1 = 0 then rr.2.1.headD junk else junk), rr.2.2)
    else (r.1, junk, r.2)
  let v := rv.2.1
  let r := (rv.1, rv.2.2)
  let r := andThen r fun s1 => rmw T s1 ISM330DHCX_PAGE_RW (fun b => pageRwSet b 0)
  let r := andThen r fun s1 => ism330dhcx_mem_bank_set T s1 .user
  (r.1, v, r.2)

/-- The loop body of `ism330dhcx_ln_pg_write`, iterated over the payload
bytes.  State: accumulated (status, transport state) plus the local
`msb`/`lsb` cursor bytes.  Mirrors the C exactly: the byte is written;
on success, if `lsb == 0` the page index is bumped and `PAGE_SEL`
re-read, then `lsb` is incremented; on (still) success the page-select
register is re-written with the current `msb`.  A failed iteration
leaves the remaining iterations as no-ops. -/
def lnPgWriteLoop {σ : Type} (T : Transport σ) :
    List Nat → Int × σ → Nat → Nat → (Int × σ) × Nat × Nat
  | [], r, msb, lsb => (r, msb, lsb)
  | b :: rest, r, msb, lsb =>
    if r.1 = 0 then
      let r1 := T.writeReg r.2 ISM330DHCX_PAGE_VALUE [b]
      let step : (Int × σ) × Nat × Nat :=
        if r1.1 = 0 then
          if lsb = 0 then
            let rr := T.readReg r1.2 ISM330DHCX_PAGE_SEL 1
            ((rr.1, rr.2.2), (msb + 1) % 256, (lsb + 1) % 256)
          else (r1, msb, (lsb + 1) % 256)
        else (r1, msb, lsb)
      let r2 :=
        if step.1.1 = 0 then
          T.writeReg step.1.2 ISM330DHCX_PAGE_SEL [pageSelByte step.2.1]
        else step.1
      lnPgWriteLoop T rest r2 step.2.1 step.2.2
    else lnPgWriteLoop T rest r msb lsb

/-- `ism330dhcx_ln_pg_write`: block paged write.  Same preamble as the
single-byte write, then the per-byte loop, then (still guarded by the
status) a final page-select write resetting the cursor to page 0, page
write disable, and User-bank restore. -/
def ism330dhcx_ln_pg_write {σ : Type} (T : Transport σ) (s : σ)
    (add : Nat) (buf : List Nat) : Int × σ :=
  let msb := add / 256 % 16
  let lsb := (add - msb * 256) % 256
  let r := ism330dhcx_mem_bank_set T s .embeddedFunc
  let r := andThen r fun s1 => rmw T s1 ISM330DHCX_PAGE_RW (fun b => pageRwSet b 2)
  let r := andThen r fun s1 => rmw T s1 ISM330DHCX_PAGE_SEL (fun _ => pageSelByte msb)
  let r := andThen r fun s1 => T.writeReg s1 ISM330DHCX_PAGE_ADDRESS [lsb]
  let out := lnPgWriteLoop T buf r msb lsb
  let r := out.1
  let r := andThen r fun s1 => T.writeReg s1 ISM330DHCX_PAGE_SEL [pageSelByte 0]
  let r := andThen r fun s1 => rmw T s1 ISM330DHCX_PAGE_RW (fun b => pageRwSet b 0)
  andThen r fun s1 => ism330dhcx_mem_bank_set T s1 .user

/-- `ism330dhcx_fifo_data_level_get`: one 2-byte read of
`FIFO_STATUS1`/`FIFO_STATUS2`, then (only on success) the count is
composed as `diff_fifo(high) * 256 + low`. -/
def ism330dhcx_fifo_data_level_get {σ : Type} (T : Transport σ) (s : σ) :
    Int × Option Nat × σ :=
  let r := T.readReg s ISM330DHCX_FIFO_STATUS1 2
  if r.1 = 0 then
    (0, some (diffFifoHi ((r.2.1.drop 1).headD 0) * 256 + r.2.1.headD 0), r.2.2)
  else (r.1, none, r.2.2)

/-- `ism330dhcx_fifo_sensor_tag_get`: one 1-byte read of the FIFO tag
register; the decode `switch` runs and stores into `*val`
unconditionally, even when the read failed (`junk` is the uninitialized
local buffer byte). -/
def ism330dhcx_fifo_sensor_tag_get {σ : Type} (T : Transport σ) (s : σ)
    (junk : Nat) : Int × Option FifoTag × σ :=
  let r := T.readReg s ISM330DHCX_FIFO_DATA_OUT_TAG 1
  let b := if r.1 = 0 then r.2.1.headD junk else junk
  (r.1, some (fifoTagDecode (tagSensorGet b)), r.2.2)

/-- `ism330dhcx_fifo_out_raw_get`: one 6-byte read at the FIFO
data-output register `FIFO_DATA_OUT_X_L`. -/
def ism330dhcx_fifo_out_raw_get {σ : Type} (T : Transport σ) (s : σ) :
    Int × List Nat × σ :=
  let r := T.readReg s ISM330DHCX_FIFO_DATA_OUT_X_L 6
  (r.1, r.2.1, r.2.2)

/-- The simulated device for the paged-memory claims: the bank-control
byte, the three indirection register bytes, and the 4096-byte paged
memory store (a function on logical addresses). -/
@[ext]
structure Device where
  funcCfg : Nat
  pageSel : Nat
  pageAddr : Nat
  pageRw : Nat
  mem : Nat → Nat

/-- The logical paged-memory address currently designated by the
device's indirection registers, `i` bytes after the cursor (the
intra-page offset auto-increments modulo 256 and the 4-bit page index
supplies the high bits). -/
def pagedAddr (d : Device) (i : Nat) : Nat :=
  pageSelGet d.pageSel * 256 + (d.pageAddr + i) % 256

/-- Device semantics of a register read: the indirection registers read
back their stored bytes; a read at `PAGE_VALUE` with page-read enabled
returns `len` bytes of paged memory at the cursor and advances the
intra-page offset. -/
def devRead (d : Device) (addr len : Nat) : Int × List Nat × Device :=
  if addr = ISM330DHCX_FUNC_CFG_ACCESS then (0, List.replicate len d.funcCfg, d)
  else if addr = ISM330DHCX_PAGE_SEL then (0, List.replicate len d.pageSel, d)
  else if addr = ISM330DHCX_PAGE_ADDRESS then (0, List.replicate len d.pageAddr, d)
  else if addr = ISM330DHCX_PAGE_RW then (0, List.replicate len d.pageRw, d)
  else if addr = ISM330DHCX_PAGE_VALUE then
    if pageRwGet d.pageRw = 1 then
      (0, (List.range len).map (fun i => d.mem (pagedAddr d i)),
        { d with pageAddr := (d.pageAddr + len) % 256 })
    else (0, List.replicate len 0, d)
  else (0, List.replicate len 0, d)

/-- Store a byte list into paged memory at the cursor, advancing the
intra-page offset once per byte. -/
def devWriteMem : Device → List Nat → Device
  | d, [] => d
  | d, b :: rest =>
    devWriteMem
      { d with
        mem := fun a => if a = pagedAddr d 0 then b % 256 else d.mem a,
        pageAddr := (d.pageAddr + 1) % 256 }
      rest

/-- Device semantics of a register write: the indirection registers
latch the written byte; a write at `PAGE_VALUE` with page-write enabled
stores into paged memory at the cursor and advances the offset. -/
def devWrite (d : Device) (addr : Nat) (bytes : List Nat) : Int × Device :=
  if addr = ISM330DHCX_FUNC_CFG_ACCESS then (0, { d with funcCfg := bytes.headD 0 % 256 })
  else if addr = ISM330DHCX_PAGE_SEL then (0, { d with pageSel := bytes.headD 0 % 256 })
  else if addr = ISM330DHCX_PAGE_ADDRESS then (0, { d with pageAddr := bytes.headD 0 % 256 })
  else if addr = ISM330DHCX_PAGE_RW then (0, { d with pageRw := bytes.headD 0 % 256 })
  else if addr = ISM330DHCX_PAGE_VALUE then
    if pageRwGet d.pageRw = 2 then (0, devWriteMem d bytes) else (0, d)
  else (0, d)

/-- The faithful device transport: never fails, implements the
page-select / page-address / page-value indirection. -/
def devT : Transport Device := ⟨devRead, devWrite⟩

/-- The power-on device: User bank, all indirection registers zero,
paged memory all zero. -/
def initDev : Device := ⟨0, 0, 0, 0, fun _ => 0⟩

/-- One recorded transport call: a read (address, length) or a write
(address, bytes). -/
inductive Call
  | rd (addr len : Nat)
  | wr (addr : Nat) (bytes : List Nat)
deriving DecidableEq, Repr

/-- The address a recorded call touches. -/
def Call.addr : Call → Nat
  | .rd a _ => a
  | .wr a _ => a

/-- Whether a recorded call is a write to address `a`. -/
def Call.isWrTo (a : Nat) : Call → Bool
  | .wr a1 _ => a1 = a
  | .rd _ _ => false

/-- A logging transport: every call succeeds (reads return zero bytes)
and is appended to the trace. -/
def logT : Transport (List Call) :=
  ⟨fun s addr len => (0, List.replicate len 0, s ++ [Call.rd addr len]),
   fun s addr bytes => (0, s ++ [Call.wr addr bytes])⟩

/-- A fail-injecting transport: the state counts the transport calls
issued so far; the `n`-th call (1-based) returns status `e`, every
other call succeeds (reads return zero bytes). -/
def failT (n : Nat) (e : Int) : Transport Nat :=
  ⟨fun s _ len => ((if s + 1 = n then e else 0), List.replicate len 0, s + 1),
   fun s _ _ => ((if s + 1 = n then e else 0), s + 1)⟩

/-- A fail-injecting transport that also logs: counts calls, records
each one, and fails the `n`-th call with status `e`. -/
def logFailT (n : Nat) (e : Int) : Transport (Nat × List Call) :=
  ⟨fun s addr len =>
     ((if s.1 + 1 = n then e else 0), List.replicate len 0,
      (s.1 + 1, s.2 ++ [Call.rd addr len])),
   fun s addr bytes =>
     ((if s.1 + 1 = n then e else 0), (s.1 + 1, s.2 ++ [Call.wr addr bytes]))⟩

/-- A transport that always fails with status `e` (reads return zero
bytes and leave the caller's buffer to its uninitialized junk). -/
def failAllT (e : Int) : Transport Unit :=
  ⟨fun s _ len => (e, List.replicate len 0, s), fun s _ _ => (e, s)⟩

/-- A transport whose every read returns the single byte `b`
(simulating a FIFO tag register holding `b`). -/
def tagT (b : Nat) : Transport Unit :=
  ⟨fun s _ _ => (0, [b % 256], s), fun s _ _ => (0, s)⟩

/-- A transport simulating the FIFO status register pair: a read
returns low byte `lo` then high byte `hi`. -/
def statusT (lo hi : Nat) : Transport Unit :=
  ⟨fun s _ _ => (0, [lo % 256, hi % 256], s), fun s _ _ => (0, s)⟩

/-- The number of bytes a recorded call transfers. -/
def Call.len : Call → Nat
  | .rd _ l => l
  | .wr _ bs => bs.length

/-- The transport calls issued to fetch one FIFO record the way the
driver does it: `ism330dhcx_fifo_sensor_tag_get` followed by
`ism330dhcx_fifo_out_raw_get`, against the logging transport. -/
def recordFetchTrace : List Call :=
  (ism330dhcx_fifo_out_raw_get logT
    (ism330dhcx_fifo_sensor_tag_get logT [] 0).2.2).2.2

/-- Read `n` bytes back from the device by repeated single-byte paged
reads at consecutive logical addresses, threading the device state. -/
def readBack (d : Device) (a : Nat) : Nat → List Nat
  | 0 => []
  | n + 1 =>
    (ism330dhcx_ln_pg_read_byte devT d a 0).2.1 ::
      readBack (ism330dhcx_ln_pg_read_byte devT d a 0).2.2 (a + 1) n

/-- Store a byte list into a memory function at consecutive addresses
starting at `base` (each byte truncated to 8 bits, as the simulated
device stores it). -/
def storeList (mem : Nat → Nat) (base : Nat) : List Nat → Nat → Nat
  | [] => mem
  | b :: rest => storeList (fun y => if y = base then b % 256 else mem y) (base + 1) rest

set_option maxRecDepth 8000

/-- C3: FIFO tag decoding is total and deterministic: against a
transport whose tag register holds any byte `b < 256`,
`ism330dhcx_fifo_sensor_tag_get` succeeds and returns exactly
`fifoTagDecode b` (a total function, hence one defined kind per byte
and the same kind on every call); any byte outside the known encoding
set decodes to the sensor-hub-NACK fallback; 0x01 decodes to the
gyroscope kind and 0x1F to the NACK fallback. -/
theorem C3_tag_decode_total :
    (∀ b : Nat, b < 256 →
      ism330dhcx_fifo_sensor_tag_get (tagT b) () 0 =
        (0, some (fifoTagDecode b), ())) ∧
    (∀ b : Nat, b < 256 → b ∉ knownTagCodes → fifoTagDecode b = .sh_nack) ∧
    fifoTagDecode 0x01 = .gyro_nc ∧ fifoTagDecode 0x1F = .sh_nack := by
  refine ⟨?_, ?_, by decide, by decide⟩ <;> decide

/-- C3 witness: the theorem instantiated at the concrete bytes 0x01 and
0x1F. -/
theorem C3_tag_decode_total_witness :
    ism330dhcx_fifo_sensor_tag_get (tagT 0x01) () 0 =
      (0, some (fifoTagDecode 0x01), ()) ∧
    fifoTagDecode 0x1F = .sh_nack :=
  ⟨C3_tag_decode_total.1 0x01 (by decide),
   C3_tag_decode_total.2.1 0x1F (by decide) (by decide)⟩

/-- C7 counterexample: fetching one FIFO record the way the driver does
it (tag get, then raw data get) issues two transport reads, and no call
in the trace transfers 7 bytes — the record is not fetched by a single
7-byte read. -/
theorem C7_single_read_counterexample :
    recordFetchTrace.length = 2 ∧
    recordFetchTrace.countP (fun c => Call.len c == 7) = 0 := by decide

/-- C7 (amended): one FIFO record is fetched by two transport reads: a
1-byte read at the FIFO tag register followed by a 6-byte read at the
FIFO data-output register (7 bytes in total across the two calls). -/
theorem C7_record_fetch_two_reads :
    recordFetchTrace =
      [Call.rd ISM330DHCX_FIFO_DATA_OUT_TAG 1,
       Call.rd ISM330DHCX_FIFO_DATA_OUT_X_L 6] := by decide

/-- C9: `ism330dhcx_fifo_data_level_get` composes the unread-record
count little-endian as high byte times 256 plus low byte; against the
simulated status pair with low byte 200 and high byte 1 it returns
456 with success. -/
theorem C9_fifo_level_little_endian :
    (∀ lo hi : Nat,
      ism330dhcx_fifo_data_level_get (statusT lo hi) () =
        (0, some (hi % 256 * 256 + lo % 256), ())) ∧
    ism330dhcx_fifo_data_level_get (statusT 200 1) () = (0, some 456, ()) :=
  ⟨fun _ _ => rfl, rfl⟩

/-- C10: when the transport read fails with a nonzero status, both
`ism330dhcx_mem_bank_get` and `ism330dhcx_fifo_sensor_tag_get` still
run their decode switch and store a value into the caller's output
parameter — decoded from the uninitialized buffer byte the failed read
left behind — while returning the nonzero status. -/
theorem C10_output_written_on_error (e : Int) (he : e ≠ 0) (j1 j2 : Nat) :
    ism330dhcx_mem_bank_get (failAllT e) () j1 =
      (e, some (bankDecode (regAccessGet j1)), ()) ∧
    ism330dhcx_fifo_sensor_tag_get (failAllT e) () j2 =
      (e, some (fifoTagDecode (tagSensorGet j2)), ()) := by
  constructor <;>
    simp [ism330dhcx_mem_bank_get, ism330dhcx_fifo_sensor_tag_get, failAllT, he]

/-- C10 witness: the theorem at status -1 and junk bytes 0. -/
theorem C10_output_written_on_error_witness :
    ism330dhcx_mem_bank_get (failAllT (-1)) () 0 =
      (-1, some (bankDecode (regAccessGet 0)), ()) ∧
    ism330dhcx_fifo_sensor_tag_get (failAllT (-1)) () 0 =
      (-1, some (fifoTagDecode (tagSensorGet 0)), ()) :=
  C10_output_written_on_error (-1) (by decide) 0 0

lemma regAccess_set_get (x c : Nat) (hc : c < 4) :
    regAccessGet (regAccessSet x c % 256) = c := by
  unfold regAccessGet regAccessSet
  omega

/-- C8: for every bank value, `ism330dhcx_mem_bank_set` followed by
`ism330dhcx_mem_bank_get` round-trips: both succeed and the read-back
bank is the one written, for any prior contents of the bank-control
register (the unrelated bits are preserved and ignored by the decode). -/
theorem C8_bank_roundtrip (b : Bank) (d : Device) (junk : Nat) :
    (ism330dhcx_mem_bank_set devT d b).1 = 0 ∧
    (ism330dhcx_mem_bank_get devT (ism330dhcx_mem_bank_set devT d b).2 junk).1 = 0 ∧
    (ism330dhcx_mem_bank_get devT (ism330dhcx_mem_bank_set devT d b).2 junk).2.1 =
      some b := by
  have hcode : b.code < 4 := by cases b <;> decide
  refine ⟨?_, ?_, ?_⟩ <;>
    cases b <;>
      simp [ism330dhcx_mem_bank_set, ism330dhcx_mem_bank_get, rmw, devT,
        devRead, devWrite, andThen, ISM330DHCX_FUNC_CFG_ACCESS,
        regAccess_set_get, Bank.code, bankDecode]

/-- C6: against the logging transport, the only page-value access the
paged single-byte read issues is one 2-byte transport read, while the
only page-value access the paged single-byte write issues is one
1-byte transport write, for every logical address. -/
theorem C6_read_two_bytes_write_one (add v junk : Nat) :
    ((ism330dhcx_ln_pg_read_byte logT [] add junk).2.2).filter
        (fun c => c.addr == ISM330DHCX_PAGE_VALUE) =
      [Call.rd ISM330DHCX_PAGE_VALUE 2] ∧
    ((ism330dhcx_ln_pg_write_byte logT [] add v).2).filter
        (fun c => c.addr == ISM330DHCX_PAGE_VALUE) =
      [Call.wr ISM330DHCX_PAGE_VALUE [v]] := by
  constructor <;>
    simp [ism330dhcx_ln_pg_read_byte, ism330dhcx_ln_pg_write_byte,
      ism330dhcx_mem_bank_set, rmw, andThen, logT, Call.addr,
      ISM330DHCX_FUNC_CFG_ACCESS, ISM330DHCX_PAGE_RW, ISM330DHCX_PAGE_SEL,
      ISM330DHCX_PAGE_ADDRESS, ISM330DHCX_PAGE_VALUE, List.filter_append,
      List.filter]

/-- C4: fail-fast error propagation.  Against the fail-injecting
transport whose `n`-th call returns the nonzero status `e`, each
composite operation (bank select with 2 register accesses, paged
write-byte and read-byte with 12 each, the block paged write of a
2-byte payload with 16) returns `e` verbatim and has issued exactly `n`
transport calls — none after the first failure. -/
theorem C4_fail_fast (e : Int) (he : e ≠ 0) (n : Nat) (b : Bank)
    (add v junk x y : Nat) :
    (1 ≤ n → n ≤ 2 → ism330dhcx_mem_bank_set (failT n e) 0 b = (e, n)) ∧
    (1 ≤ n → n ≤ 12 → ism330dhcx_ln_pg_write_byte (failT n e) 0 add v = (e, n)) ∧
    (1 ≤ n → n ≤ 12 →
      (ism330dhcx_ln_pg_read_byte (failT n e) 0 add junk).1 = e ∧
      (ism330dhcx_ln_pg_read_byte (failT n e) 0 add junk).2.2 = n) ∧
    (1 ≤ n → n ≤ 16 →
      ism330dhcx_ln_pg_write (failT n e) 0 0x10A [x, y] = (e, n)) := by
  refine ⟨?_, ?_, ?_, ?_⟩ <;> intro h1 h2 <;> interval_cases n <;>
    simp [ism330dhcx_mem_bank_set, ism330dhcx_ln_pg_write_byte,
      ism330dhcx_ln_pg_read_byte, ism330dhcx_ln_pg_write, lnPgWriteLoop,
      rmw, andThen, failT, he]

/-- C4 witness: failure injected at the second transport call of each
operation. -/
theorem C4_fail_fast_witness :
    ism330dhcx_mem_bank_set (failT 2 (-1)) 0 Bank.user = (-1, 2) ∧
    ism330dhcx_ln_pg_write_byte (failT 2 (-1)) 0 0x10A 0x2A = (-1, 2) ∧
    ((ism330dhcx_ln_pg_read_byte (failT 2 (-1)) 0 0x10A 0).1 = -1 ∧
      (ism330dhcx_ln_pg_read_byte (failT 2 (-1)) 0 0x10A 0).2.2 = 2) ∧
    ism330dhcx_ln_pg_write (failT 2 (-1)) 0 0x10A [1, 2] = (-1, 2) := by
  have h := C4_fail_fast (-1) (by decide) 2 Bank.user 0x10A 0x2A 0 1 2
  exact ⟨h.1 (by decide) (by decide), h.2.1 (by decide) (by decide),
    h.2.2.1 (by decide) (by decide), h.2.2.2 (by decide) (by decide)⟩

/-- C5 counterexample: a transport failure at the 8th call — the first
payload byte write of `ism330dhcx_ln_pg_write (0x010A, [0x2A, 0x2B])` —
makes the function return with a trace containing exactly one write to
the page read/write-enable register (the initial write-enable) and
exactly one write to the bank-control register (the initial
EmbeddedFunction select): the page-write-mode disable and the User-bank
restore are never attempted, contrary to the claim. -/
theorem C5_cleanup_skipped_counterexample :
    (ism330dhcx_ln_pg_write (logFailT 8 (-1)) (0, []) 0x10A [0x2A, 0x2B]).1 = -1 ∧
    ((ism330dhcx_ln_pg_write (logFailT 8 (-1)) (0, []) 0x10A [0x2A, 0x2B]).2.2).countP
      (Call.isWrTo ISM330DHCX_PAGE_RW) = 1 ∧
    ((ism330dhcx_ln_pg_write (logFailT 8 (-1)) (0, []) 0x10A [0x2A, 0x2B]).2.2).countP
      (Call.isWrTo ISM330DHCX_FUNC_CFG_ACCESS) = 1 := by decide

/-- C5 (amended): when the transport fails mid-loop during
`ism330dhcx_ln_pg_write` (calls 8 through 11 are the loop's calls for a
2-byte payload at 0x010A), the function stops issuing transport calls
entirely: the total call count equals the index of the failing call, so
neither the page-write-mode disable nor the User-bank restore is
attempted — cleanup runs only on the success path. -/
theorem C5_midloop_failure_stops_everything (e : Int) (he : e ≠ 0)
    (n x y : Nat) (h1 : 8 ≤ n) (h2 : n ≤ 11) :
    ism330dhcx_ln_pg_write (failT n e) 0 0x10A [x, y] = (e, n) := by
  interval_cases n <;>
    simp [ism330dhcx_ln_pg_write, ism330dhcx_mem_bank_set, lnPgWriteLoop,
      rmw, andThen, failT, he]

/-- C5 witness: failure injected at the 9th transport call (the
page-select re-write after the first payload byte). -/
theorem C5_midloop_failure_stops_everything_witness :
    ism330dhcx_ln_pg_write (failT 9 (-7)) 0 0x10A [0x2A, 0x2B] = (-7, 9) :=
  C5_midloop_failure_stops_everything (-7) (by decide) 9 0x2A 0x2B
    (by decide) (by decide)

lemma pageSelGet_pageSelByte (m : Nat) (hm : m < 16) :
    pageSelGet (pageSelByte m % 256) = m := by
  unfold pageSelGet pageSelByte
  omega

lemma pageRw_set_get (x v : Nat) (hv : v < 4) :
    pageRwGet (pageRwSet x v % 256) = v := by
  unfold pageRwGet pageRwSet
  omega

/-- Characterization of the paged single-byte read against the
simulated device: from any device state it succeeds, returns the paged
memory byte at the logical address, and leaves the memory untouched. -/
lemma ln_pg_read_byte_devT (d : Device) (a junk : Nat) (ha : a < 4096) :
    (ism330dhcx_ln_pg_read_byte devT d a junk).1 = 0 ∧
    (ism330dhcx_ln_pg_read_byte devT d a junk).2.1 = d.mem a ∧
    ((ism330dhcx_ln_pg_read_byte devT d a junk).2.2).mem = d.mem := by
  have h16 : a / 256 % 16 = a / 256 := by omega
  have hsub : (a - a / 256 % 16 * 256) % 256 = a % 256 := by omega
  have hmm : a % 256 % 256 = a % 256 := by omega
  have hps : pageSelGet (pageSelByte (a / 256) % 256) = a / 256 :=
    pageSelGet_pageSelByte _ (by omega)
  have hrw1 : pageRwGet (pageRwSet d.pageRw 1 % 256) = 1 :=
    pageRw_set_get _ _ (by omega)
  have haddr : a / 256 * 256 + a % 256 = a := by omega
  have haddr2 : a / 256 * 256 + (a - a / 256 * 256) % 256 = a := by omega
  refine ⟨?_, ?_, ?_⟩ <;>
    simp [ism330dhcx_ln_pg_read_byte, ism330dhcx_mem_bank_set, rmw, andThen,
      devT, devRead, devWrite, pagedAddr, ISM330DHCX_FUNC_CFG_ACCESS,
      ISM330DHCX_PAGE_RW, ISM330DHCX_PAGE_SEL, ISM330DHCX_PAGE_ADDRESS,
      ISM330DHCX_PAGE_VALUE, List.range_succ, h16, hsub, hmm, hps, hrw1, haddr,
      haddr2]

/-- Characterization of the paged single-byte write against the
simulated device: from any device state it succeeds and stores the
byte (truncated to 8 bits) at the logical address, leaving the rest of
the paged memory unchanged. -/
lemma ln_pg_write_byte_devT (d : Device) (a v : Nat) (ha : a < 4096) :
    (ism330dhcx_ln_pg_write_byte devT d a v).1 = 0 ∧
    ((ism330dhcx_ln_pg_write_byte devT d a v).2).mem =
      fun x => if x = a then v % 256 else d.mem x := by
  have h16 : a / 256 % 16 = a / 256 := by omega
  have hsub : (a - a / 256 % 16 * 256) % 256 = a % 256 := by omega
  have hmm : a % 256 % 256 = a % 256 := by omega
  have hps : pageSelGet (pageSelByte (a / 256) % 256) = a / 256 :=
    pageSelGet_pageSelByte _ (by omega)
  have hrw2 : pageRwGet (pageRwSet d.pageRw 2 % 256) = 2 :=
    pageRw_set_get _ _ (by omega)
  have haddr : a / 256 * 256 + a % 256 = a := by omega
  have haddr2 : a / 256 * 256 + (a - a / 256 * 256) % 256 = a := by omega
  refine ⟨?_, ?_⟩ <;>
    simp [ism330dhcx_ln_pg_write_byte, ism330dhcx_mem_bank_set, rmw, andThen,
      devT, devRead, devWrite, devWriteMem, pagedAddr,
      ISM330DHCX_FUNC_CFG_ACCESS, ISM330DHCX_PAGE_RW, ISM330DHCX_PAGE_SEL,
      ISM330DHCX_PAGE_ADDRESS, ISM330DHCX_PAGE_VALUE, h16, hsub, hmm, hps,
      hrw2, haddr, haddr2]

/-- C1: paged-memory round-trip.  For every logical address below 4096
and every byte value, writing with `ism330dhcx_ln_pg_write_byte` and
then reading with `ism330dhcx_ln_pg_read_byte` against the faithful
device simulation of the page-select/page-address/page-value
indirection returns the written byte, with both calls reporting
status zero. -/
theorem C1_write_byte_read_byte_roundtrip (a v : Nat) (ha : a < 4096)
    (hv : v < 256) :
    (ism330dhcx_ln_pg_write_byte devT initDev a v).1 = 0 ∧
    (ism330dhcx_ln_pg_read_byte devT
        (ism330dhcx_ln_pg_write_byte devT initDev a v).2 a 0).1 = 0 ∧
    (ism330dhcx_ln_pg_read_byte devT
        (ism330dhcx_ln_pg_write_byte devT initDev a v).2 a 0).2.1 = v := by
  obtain ⟨h1, h2⟩ := ln_pg_write_byte_devT initDev a v ha
  obtain ⟨r1, r2, -⟩ :=
    ln_pg_read_byte_devT (ism330dhcx_ln_pg_write_byte devT initDev a v).2 a 0 ha
  refine ⟨h1, r1, ?_⟩
  rw [r2, h2]
  simp [Nat.mod_eq_of_lt hv]

/-- C1 witness: the round-trip at logical address 0x010A (page 1,
offset 10) with byte 0x2A. -/
theorem C1_write_byte_read_byte_roundtrip_witness :
    (0x10A : Nat) < 4096 ∧ (0x2A : Nat) < 256 ∧
    ((ism330dhcx_ln_pg_write_byte devT initDev 0x10A 0x2A).1 = 0 ∧
     (ism330dhcx_ln_pg_read_byte devT
         (ism330dhcx_ln_pg_write_byte devT initDev 0x10A 0x2A).2 0x10A 0).1 = 0 ∧
     (ism330dhcx_ln_pg_read_byte devT
         (ism330dhcx_ln_pg_write_byte devT initDev 0x10A 0x2A).2 0x10A 0).2.1 =
       0x2A) :=
  ⟨by decide, by decide,
   C1_write_byte_read_byte_roundtrip 0x10A 0x2A (by decide) (by decide)⟩

/-- C2 counterexample: writing [1, 2, 3, 4] at logical address 0x01FE
(page 1, offset 254) against the faithful device simulation succeeds,
but reading the four bytes back yields [1, 2, 0, 4]: the third byte —
the first one past the page boundary — was stored at offset 0 of the
old page (logical address 0x0100) because the code increments the page
index only after writing the byte whose offset counter is 0, one byte
too late. -/
theorem C2_page_cross_roundtrip_counterexample :
    (ism330dhcx_ln_pg_write devT initDev 0x1FE [1, 2, 3, 4]).1 = 0 ∧
    readBack (ism330dhcx_ln_pg_write devT initDev 0x1FE [1, 2, 3, 4]).2
      0x1FE 4 = [1, 2, 0, 4] ∧
    ((ism330dhcx_ln_pg_write devT initDev 0x1FE [1, 2, 3, 4]).2).mem 0x100 =
      3 := by decide

lemma pageSelByte_mod (m : Nat) : pageSelByte m % 256 = pageSelByte m := by
  unfold pageSelByte
  omega

lemma pageSelGet_pageSelByte' (m : Nat) (hm : m < 16) :
    pageSelGet (pageSelByte m) = m := by
  unfold pageSelGet pageSelByte
  omega

lemma storeList_lt (buf : List Nat) :
    ∀ (mem : Nat → Nat) (base x : Nat), x < base → storeList mem base buf x = mem x := by
  induction buf with
  | nil => intro mem base x _; rfl
  | cons b rest ih =>
    intro mem base x hx
    show storeList _ (base + 1) rest x = mem x
    rw [ih _ _ _ (by omega)]
    exact if_neg (by omega)

lemma storeList_get (buf : List Nat) :
    ∀ (mem : Nat → Nat) (base i : Nat), i < buf.length →
      storeList mem base buf (base + i) = buf.getD i 0 % 256 := by
  induction buf with
  | nil => intro mem base i h; simp at h
  | cons b rest ih =>
    intro mem base i h
    cases i with
    | zero =>
      show storeList _ (base + 1) rest (base + 0) = b % 256
      rw [storeList_lt _ _ _ _ (by omega), if_pos (by omega)]
    | succ j =>
      show storeList _ (base + 1) rest (base + (j + 1)) = rest.getD j 0 % 256
      have hb : base + (j + 1) = base + 1 + j := by omega
      rw [hb, ih _ _ j (by simpa using h)]

lemma map_getD_range (buf : List Nat) :
    (List.range buf.length).map (fun i => buf.getD i 0) = buf := by
  induction buf with
  | nil => rfl
  | cons b rest ih =>
    rw [List.length_cons, List.range_succ_eq_map, List.map_cons, List.map_map]
    have hf : ((fun i => (b :: rest).getD i 0) ∘ Nat.succ) = fun i => rest.getD i 0 := by
      funext i
      simp [List.getD_cons_succ]
    rw [hf, ih]
    simp [List.getD_cons_zero]

/-- Repeated single-byte read-back against the simulated device just
samples the paged memory at consecutive addresses. -/
lemma readBack_eq (n : Nat) :
    ∀ (d : Device) (a : Nat), (∀ i, i < n → a + i < 4096) →
      readBack d a n = (List.range n).map (fun i => d.mem (a + i)) := by
  induction n with
  | zero => intro d a _; rfl
  | succ m ih =>
    intro d a h
    obtain ⟨-, r2, r3⟩ :=
      ln_pg_read_byte_devT d a 0 (by simpa using h 0 (by omega))
    show (ism330dhcx_ln_pg_read_byte devT d a 0).2.1 ::
        readBack (ism330dhcx_ln_pg_read_byte devT d a 0).2.2 (a + 1) m = _
    rw [r2, ih _ _ (fun i hi => by have := h (i + 1) (by omega); omega), r3]
    rw [List.range_succ_eq_map, List.map_cons, List.map_map]
    have hf : ((fun i => d.mem (a + i)) ∘ Nat.succ) = fun i => d.mem (a + 1 + i) := by
      funext i
      simp only [Function.comp_apply]
      congr 1
      omega
    rw [hf]
    simp

/-- Loop invariant for the no-page-crossing case of the block paged
write: starting from a device whose page-select register holds page `m`
and whose page cursor sits at nonzero offset `l` with page write
enabled, and with the payload fitting inside the page, the loop
succeeds and stores the payload at consecutive logical addresses. -/
lemma lnPgWriteLoop_devT (buf : List Nat) :
    ∀ (d : Device) (m l : Nat), m < 16 → 0 < l → l < 256 →
      l + buf.length ≤ 256 →
      d.pageSel = pageSelByte m → d.pageAddr = l → pageRwGet d.pageRw = 2 →
      lnPgWriteLoop devT buf (0, d) m l =
        ((0, { funcCfg := d.funcCfg, pageSel := pageSelByte m,
               pageAddr := (l + buf.length) % 256, pageRw := d.pageRw,
               mem := storeList d.mem (m * 256 + l) buf }),
         m, (l + buf.length) % 256) := by
  induction buf with
  | nil =>
    intro d m l hm hl0 hl hfit hsel haddr hrw
    have hml : l % 256 = l := Nat.mod_eq_of_lt hl
    simp only [lnPgWriteLoop, List.length_nil, Nat.add_zero, storeList, hml]
    refine Prod.ext ?_ rfl
    refine Prod.ext rfl ?_
    exact Device.ext rfl hsel haddr rfl rfl
  | cons b rest ih =>
    intro d m l hm hl0 hl hfit hsel haddr hrw
    have hml : l % 256 = l := Nat.mod_eq_of_lt hl
    have hln : ¬(l = 0) := by omega
    have hpa : pagedAddr d 0 = m * 256 + l := by
      rw [pagedAddr, hsel, haddr, pageSelGet_pageSelByte' m hm]
      omega
    simp only [lnPgWriteLoop, devT, devWrite, devWriteMem, hrw, hpa, haddr,
      hln, pageSelByte_mod, ISM330DHCX_PAGE_VALUE, ISM330DHCX_FUNC_CFG_ACCESS,
      ISM330DHCX_PAGE_SEL, ISM330DHCX_PAGE_ADDRESS, ISM330DHCX_PAGE_RW,
      if_true, if_false, ite_true, ite_false, reduceIte, Nat.reduceEqDiff]
    rcases rest with _ | ⟨c, rest2⟩
    · simp [lnPgWriteLoop, storeList, pageSelByte_mod]
    · have hl1 : l + 1 < 256 := by
        simp only [List.length_cons] at hfit
        omega
      simp only [List.headD_cons, pageSelByte_mod, Nat.mod_eq_of_lt hl1]
      have hrec := ih
        (Device.mk d.funcCfg (pageSelByte m) (l + 1) d.pageRw
          (fun y => if y = m * 256 + l then b % 256 else d.mem y))
        m (l + 1) hm (by omega) hl1
        (by simp only [List.length_cons] at hfit ⊢; omega)
        rfl rfl hrw
      simp only [devT] at hrec
      rw [hrec]
      have hbase : m * 256 + (l + 1) = m * 256 + l + 1 := by omega
      refine Prod.ext ?_ (Prod.ext rfl ?_)
      · refine Prod.ext rfl ?_
        refine Device.ext rfl rfl ?_ rfl ?_
        · simp only [List.length_cons]
          congr 1
          omega
        · simp only [storeList, hbase]
      · simp only [List.length_cons]
        congr 1
        omega

/-- Characterization of the block paged write against the simulated
device in the no-page-crossing case: it succeeds, stores the payload at
consecutive logical addresses, and leaves the page-select cursor reset
to page 0. -/
lemma ln_pg_write_devT (d : Device) (a : Nat) (buf : List Nat) (ha : a < 4096)
    (h0 : a % 256 ≠ 0) (hfit : a % 256 + buf.length ≤ 256) :
    (ism330dhcx_ln_pg_write devT d a buf).1 = 0 ∧
    ((ism330dhcx_ln_pg_write devT d a buf).2).mem = storeList d.mem a buf ∧
    pageSelGet ((ism330dhcx_ln_pg_write devT d a buf).2).pageSel = 0 := by
  have h16 : a / 256 % 16 = a / 256 := by omega
  have hsub2 : (a - a / 256 * 256) % 256 = a % 256 := by omega
  have hmm : a % 256 % 256 = a % 256 := by omega
  have hps0 : pageSelGet (pageSelByte 0) = 0 := pageSelGet_pageSelByte' 0 (by omega)
  have hrw2 : pageRwGet (pageRwSet d.pageRw 2 % 256) = 2 :=
    pageRw_set_get _ _ (by omega)
  have hloop := lnPgWriteLoop_devT buf
    (Device.mk (regAccessSet d.funcCfg 2 % 256) (pageSelByte (a / 256))
      (a % 256) (pageRwSet d.pageRw 2 % 256) d.mem)
    (a / 256) (a % 256) (by omega) (by omega) (by omega) hfit rfl rfl hrw2
  simp only [devT] at hloop
  have hbase : a / 256 * 256 + a % 256 = a := by omega
  rw [hbase] at hloop
  refine ⟨?_, ?_, ?_⟩ <;>
    simp only [ism330dhcx_ln_pg_write, ism330dhcx_mem_bank_set, rmw, andThen,
      devT, devRead, devWrite, List.headD_cons, List.replicate, Bank.code,
      h16, hsub2, hmm, pageSelByte_mod, hps0, hloop, ISM330DHCX_FUNC_CFG_ACCESS,
      ISM330DHCX_PAGE_RW, ISM330DHCX_PAGE_SEL, ISM330DHCX_PAGE_ADDRESS,
      ISM330DHCX_PAGE_VALUE, if_true, if_false, ite_true, ite_false,
      reduceIte, Nat.reduceEqDiff]

/-- C2 (amended): the block paged write stores the bytes in strict
sequence order starting at the logical address and the final
page-select write resets the cursor to page 0, but the page-boundary
handling is off by one byte (the page index is bumped only after a byte
has been written with the offset counter at 0), so the read-back
round-trip is guaranteed only for payloads that stay inside one page
and start at a nonzero intra-page offset. -/
theorem C2_block_write_roundtrip_no_cross (a : Nat) (buf : List Nat)
    (ha : a < 4096) (h0 : a % 256 ≠ 0)
    (hfit : a % 256 + buf.length ≤ 256) (hb : ∀ b ∈ buf, b < 256) :
    (ism330dhcx_ln_pg_write devT initDev a buf).1 = 0 ∧
    pageSelGet ((ism330dhcx_ln_pg_write devT initDev a buf).2).pageSel = 0 ∧
    readBack (ism330dhcx_ln_pg_write devT initDev a buf).2 a buf.length =
      buf := by
  obtain ⟨h1, h2, h3⟩ := ln_pg_write_devT initDev a buf ha h0 hfit
  refine ⟨h1, h3, ?_⟩
  have hlt : ∀ i, i < buf.length → a + i < 4096 := by
    intro i hi
    omega
  rw [readBack_eq buf.length _ a hlt, h2]
  have hpt : ∀ i ∈ List.range buf.length,
      storeList initDev.mem a buf (a + i) = buf.getD i 0 := by
    intro i hi
    rw [List.mem_range] at hi
    rw [storeList_get buf _ a i hi]
    have hmem : buf.getD i 0 ∈ buf := by
      rw [List.getD_eq_getElem buf 0 hi]
      exact List.getElem_mem hi
    exact Nat.mod_eq_of_lt (hb _ hmem)
  rw [List.map_congr_left hpt]
  exact map_getD_range buf

/-- C2 witness for the amended round-trip: payload [9, 8, 7] at logical
address 0x010A (page 1, offsets 10..12). -/
theorem C2_block_write_roundtrip_no_cross_witness :
    (ism330dhcx_ln_pg_write devT initDev 0x10A [9, 8, 7]).1 = 0 ∧
    pageSelGet ((ism330dhcx_ln_pg_write devT initDev 0x10A [9, 8, 7]).2).pageSel = 0 ∧
    readBack (ism330dhcx_ln_pg_write devT initDev 0x10A [9, 8, 7]).2 0x10A 3 =
      [9, 8, 7] :=
  C2_block_write_roundtrip_no_cross 0x10A [9, 8, 7] (by decide) (by decide)
    (by decide) (by decide)

end Ism330dhcx
